import Mathlib

/-!
Verification of the libvirt RPC client transport
(vendor/github.com/digitalocean/go-libvirt/rpc.go).

The transport frames XDR-encoded packets over a byte stream, multiplexes
concurrent calls by serial number, routes events by callback id, and
implements outgoing/incoming streaming attached to a call.  Machine
integers (Go uint32) are modelled as Nat with explicit reduction
modulo 2^32 where the code truncates; bytes are Nat values; readers,
writers and channels are modelled as explicit lists of events.
-/

/-- Modelled from the spec: size in bytes of the packet length prefix
(constants.PacketLengthSize; the constants package is not part of the
sources, the spec wire table gives a 4-byte u32 length at offset 0). -/
def PacketLengthSize : Nat := 4

/-- Modelled from the spec: size in bytes of the fixed packet header
(constants.HeaderSize; the spec wire table gives six u32 fields,
offsets 4 to 28). -/
def HeaderSize : Nat := 24

/-- Modelled from the spec: one mebibyte (the MiB constant of the
go-libvirt package, not among the sources; the spec caps stream chunks
at 4 MiB minus the header size). -/
def MiB : Nat := 1048576

/-- Modelled from the spec: the protocol version placed in every header
(constants.ProtocolVersion, not among the sources).  The concrete value
is irrelevant to every property proved here. -/
def ProtocolVersion : Nat := 1

/-- Modelled from the spec: the well-known ERR_OK error code of libvirt
(errOk, defined outside the sources; libvirt uses 0 for VIR_ERR_OK). -/
def errOk : Nat := 0

/-- Modelled from the spec: numeric identifier of the QEMU extension
program (constants.ProgramQEMU, not among the sources).  Only used as a
routing key; the concrete value is irrelevant. -/
def ProgramQEMU : Nat := 2

/-- Modelled from the spec: procedure number of the QEMU domain monitor
event notification (constants.QEMUDomainMonitorEvent, not among the
sources).  Only used as a routing key. -/
def QEMUDomainMonitorEvent : Nat := 6

/-- Packet type codes (rpc.go iota block).  The source names them Call,
Reply, Message, Stream, CallWithFDs, ReplyWithFDs; `Stream` collides
with a Lean core name, so all six carry a `Typ` marker here. -/
def TypCall : Nat := 0

def TypReply : Nat := 1

def TypMessage : Nat := 2

def TypStream : Nat := 3

def TypCallWithFDs : Nat := 4

def TypReplyWithFDs : Nat := 5

/-- Status codes (rpc.go iota block). -/
def StatusOK : Nat := 0

def StatusError : Nat := 1

def StatusContinue : Nat := 2

/-- The libvirt rpc packet header (rpc.go `header`): six uint32 fields.
The source field `Type` is a Lean keyword and is called `Typ` here. -/
structure header where
  Program : Nat
  Version : Nat
  Procedure : Nat
  Typ : Nat
  Serial : Nat
  Status : Nat
  deriving Repr, DecidableEq

/-- Internal rpc response (rpc.go `response`): payload bytes and status. -/
structure response where
  Payload : List Nat
  Status : Nat
  deriving Repr, DecidableEq

/-- Big-endian serialization of a uint32 into four bytes
(binary.Write with binary.BigEndian); a Nat is reduced modulo 2^32
exactly as Go's uint32 conversion does. -/
def u32be (n : Nat) : List Nat :=
  [n / 16777216 % 256, n / 65536 % 256, n / 256 % 256, n % 256]

/-- Big-endian reading of a uint32 from bytes (binary.BigEndian.Uint32). -/
def beU32 (l : List Nat) : Nat :=
  l.foldl (fun a x => a * 256 + x) 0

/-- The bytes sendPacket (rpc.go) puts on the wire: the `packet` struct
(length, then the six header fields, each u32 big-endian) followed by
the payload bytes; a nil payload contributes nothing.  Size counts the
length prefix, the header and the payload. -/
def sendPacketBytes (serial proc program : Nat) (payload : Option (List Nat))
    (typ status : Nat) : List Nat :=
  u32be (PacketLengthSize + HeaderSize +
      (match payload with | some p => p.length | none => 0)) ++
    (u32be program ++ (u32be ProtocolVersion ++ (u32be proc ++
      (u32be typ ++ (u32be serial ++ (u32be status ++
        (match payload with | some p => p | none => [])))))))

/-- One call of r.Read(buf) copies the returned chunk over the start of
buf, leaving the rest of buf unchanged (Go slice semantics: Read writes
into buf[0:n]). -/
def overwriteBuf (buf chunk : List Nat) : List Nat :=
  (chunk ++ buf.drop chunk.length).take buf.length

/-- The read loop shared by pktlen and extractHeader (rpc.go):
`for n := 0; n < cap(buf); { nn, err := r.Read(buf); if err != nil
{ return err }; n += nn }`.  Each Read call is given the whole buffer
again (not buf[n:]), so a later partial read overwrites the start of
the buffer.  The reader is a list of chunks, one per Read call; an
exhausted reader stands for a Read error (none). -/
def readLoop (cap : Nat) : List (List Nat) → Nat → List Nat → Option (List Nat)
  | [], n, buf => if n < cap then none else some buf
  | chunk :: rest, n, buf =>
    if n < cap then readLoop cap rest (n + chunk.length) (overwriteBuf buf chunk)
    else some buf

/-- pktlen (rpc.go): run the read loop over a 4-byte buffer and decode
it big-endian. -/
def pktlen (reads : List (List Nat)) : Option Nat :=
  (readLoop PacketLengthSize reads 0 (List.replicate PacketLengthSize 0)).map beU32

/-- Header decoding of extractHeader (rpc.go): six big-endian u32 reads
at offsets 0,4,8,12,16,20 of the 24-byte buffer. -/
def hdrOfBuf (b : List Nat) : header :=
  { Program := beU32 (b.take 4)
    Version := beU32 ((b.drop 4).take 4)
    Procedure := beU32 ((b.drop 8).take 4)
    Typ := beU32 ((b.drop 12).take 4)
    Serial := beU32 ((b.drop 16).take 4)
    Status := beU32 ((b.drop 20).take 4) }

/-- extractHeader (rpc.go): run the read loop over a 24-byte buffer and
decode the six fields. -/
def extractHeader (reads : List (List Nat)) : Option header :=
  (readLoop HeaderSize reads 0 (List.replicate HeaderSize 0)).map hdrOfBuf

/-- Decoding one packet from a byte stream, as the reader loop does it
(rpc.go listen): pktlen over the first four bytes, extractHeader over
the next 24, then an io.ReadFull of (length - 28) payload bytes, which
fails if fewer bytes are available. -/
def decodePacketBytes (bs : List Nat) : Option (Nat × header × List Nat) :=
  (pktlen [bs.take PacketLengthSize]).bind fun len =>
    (extractHeader [(bs.drop PacketLengthSize).take HeaderSize]).bind fun h =>
      if (bs.drop (PacketLengthSize + HeaderSize)).length <
          len - (PacketLengthSize + HeaderSize) then none
      else some (len, h, (bs.drop (PacketLengthSize + HeaderSize)).take
          (len - (PacketLengthSize + HeaderSize)))


/-- The libvirt error response record (rpc.go `libvirtError`).  The Go
Message field is a string; it is modelled as its byte sequence. -/
structure libvirtError where
  Code : Nat
  DomainID : Nat
  Padding : Nat
  Message : List Nat
  Level : Nat
  deriving Repr, DecidableEq

/-- libvirtError.Error() (rpc.go): the displayable form of the error is
exactly its Message field. -/
def libvirtError.errorString (e : libvirtError) : List Nat := e.Message

/-- XDR decoding of one unsigned 32-bit integer: four big-endian bytes
consumed from the front of the buffer (go-xdr). -/
def xdrU32 : List Nat → Option (Nat × List Nat)
  | a :: b :: c :: d :: rest => some (((a * 256 + b) * 256 + c) * 256 + d, rest)
  | _ => none

/-- XDR decoding of a variable-length opaque/string (go-xdr): a u32
length n, then n bytes, then zero padding up to a multiple of four; it
fails when the buffer holds fewer than the padded length. -/
def xdrOpaque (buf : List Nat) : Option (List Nat × List Nat) :=
  (xdrU32 buf).bind fun nr =>
    if nr.2.length < nr.1 + (4 - nr.1 % 4) % 4 then none
    else some (nr.2.take nr.1, nr.2.drop (nr.1 + (4 - nr.1 % 4) % 4))

/-- XDR decoding of a libvirtError record, field by field in struct
order (go-xdr Decode in decodeError, rpc.go): Code u32, DomainID u32,
Padding u8 (a u32 on the wire, rejected above 255), Message string,
Level u32.  Trailing bytes are ignored, as the Go decoder ignores them. -/
def decodeLibvirtError (buf : List Nat) : Option libvirtError :=
  (xdrU32 buf).bind fun code =>
    (xdrU32 code.2).bind fun dom =>
      (xdrU32 dom.2).bind fun pad =>
        if 255 < pad.1 then none
        else (xdrOpaque pad.2).bind fun msg =>
          (xdrU32 msg.2).bind fun lvl =>
            some ⟨code.1, dom.1, pad.1, msg.1, lvl.1⟩

/-- First-position match of the needle against the haystack (the inner
step of Go strings.Contains). -/
def leadMatch : List Nat → List Nat → Bool
  | [], _ => true
  | _ :: _, [] => false
  | a :: as, b :: bs => a == b && leadMatch as bs

/-- Substring containment, strings.Contains(hay, needle): the needle
occurs contiguously somewhere in the haystack. -/
def hasSub (needle : List Nat) : List Nat → Bool
  | [] => leadMatch needle []
  | a :: t => leadMatch needle (a :: t) || hasSub needle t

/-- The byte sequence of the ASCII string "unknown procedure", the
marker decodeError (rpc.go) searches for in server error messages. -/
def unknownProcedureBytes : List Nat :=
  [117, 110, 107, 110, 111, 119, 110, 32, 112, 114, 111, 99, 101, 100,
   117, 114, 101]

/-- The Go error values the transport can return, as a closed taxonomy:
ErrUnsupported, a structured libvirtError, an XDR decode failure
surfaced by decodeError, or a failed write into the caller's incoming
sink (whose concrete error value the transport passes through). -/
inductive rpcErr where
  | unsupported
  | lib (e : libvirtError)
  | xdrFail
  | sinkWrite
  deriving Repr, DecidableEq

/-- decodeError (rpc.go): XDR-decode the buffer into a libvirtError
(surfacing the decoder's failure), return ErrUnsupported when the
message contains "unknown procedure", no error when the code is the
well-known ERR_OK, and the structured record otherwise.  `none` is Go's
nil error. -/
def decodeError (buf : List Nat) : Option rpcErr :=
  match decodeLibvirtError buf with
  | none => some rpcErr.xdrFail
  | some e =>
    if hasSub unknownProcedureBytes e.Message then some rpcErr.unsupported
    else if e.Code = errOk then none
    else some (rpcErr.lib e)

/-- getResponse (rpc.go) applied to the one response received from the
call's sink: a StatusError response is paired with the decoded error,
anything else with nil. -/
def getResponse (r : response) : response × Option rpcErr :=
  if r.Status = StatusError then (r, decodeError r.Payload) else (r, none)

/-- requestStream (rpc.go) in its unary shape (outStream and inStream
both nil): allocate the next serial (atomic uint32 increment), write
the Call packet (type Call, status OK) and hand the first response
delivered to the registered sink to getResponse; with no streams, that
pair is the call's result.  The deliveries list is what the reader loop
routes to this serial's sink, in wire order; an empty list means no
response ever arrives (the call blocks), modelled as `none`. -/
def requestUnary (s proc program : Nat) (payload : List Nat)
    (deliveries : List response) : List Nat × Option (response × Option rpcErr) :=
  let serial := (s + 1) % 4294967296
  let wire := sendPacketBytes serial proc program (some payload) TypCall StatusOK
  match deliveries with
  | [] => (wire, none)
  | r :: _ => (wire, some (getResponse r))

/-- processIncomingStream (rpc.go): pull responses from the call's sink
until the stream ends.  A response whose getResponse pairing carries an
error terminates with that error; StatusOK terminates successfully; an
empty payload terminates successfully (libvirtd ends streams with an
empty StatusContinue, breaking the protocol); otherwise the payload is
written to the caller's incoming sink when one was supplied.  The sink
is modelled by whether it is present (hasSink) and by the index of the
write, if any, that fails (failAt); a failed write aborts with the
write error and a zero response.  An exhausted delivery list means the
loop is still blocked on its sink (`none`). -/
def processIncomingStream (hasSink : Bool) (failAt : Option Nat) :
    List response → Nat → List (List Nat) × Option (response × Option rpcErr)
  | [], _ => ([], none)
  | r :: rest, i =>
    match getResponse r with
    | (resp, some e) => ([], some (resp, some e))
    | (resp, none) =>
      if resp.Status = StatusOK then ([], some (resp, none))
      else if resp.Payload = [] then ([], some (resp, none))
      else if hasSink then
        if failAt = some i then ([], some (⟨[], 0⟩, some rpcErr.sinkWrite))
        else
          let t := processIncomingStream hasSink failAt rest (i + 1)
          (resp.Payload :: t.1, t.2)
      else processIncomingStream hasSink failAt rest i

/-- One outcome of stream.Read(buf) in sendStream (rpc.go): a chunk of
data with nil error, a non-EOF read error (carrying an identifying
code so the propagated error can be compared), or io.EOF. -/
inductive ReadEv where
  | chunk (data : List Nat)
  | rerr (code : Nat)
  | reof
  deriving Repr, DecidableEq

/-- One packet handed to sendPacket, recorded structurally: the
argument list of the call.  The writer mutex keeps wire order equal to
call order, so the list of these records determines the wire. -/
structure sentPacket where
  Serial : Nat
  Proc : Nat
  Program : Nat
  Payload : List Nat
  Typ : Nat
  Status : Nat
  deriving Repr, DecidableEq

/-- Whether the non-blocking select at the top of the sendStream loop
sees the abort channel ready: the abort was signalled at iteration k
and stays pending until consumed. -/
def abortPending (abortAt : Option Nat) (i : Nat) : Bool :=
  match abortAt with
  | some k => decide (k ≤ i)
  | none => false

/-- sendStream (rpc.go): loop over source reads with a buffer of
4 MiB - HeaderSize bytes.  Each iteration first polls the abort
channel (on abort: send Stream/StatusError, return nil); then reads:
io.EOF sends Stream/StatusOK and returns nil, another read error sends
Stream/StatusError and returns the original error, and a chunk of n > 0
bytes is sent as Stream/StatusContinue (n = 0 sends nothing).  Output:
the packets written, and the returned error (`none` = the loop is still
blocked in Read because the event list ran out; `some none` = returned
nil; `some (some c)` = returned the read error c).  The branch on the
iteration's read outcome is placed outermost with the identical abort
poll repeated in every arm — the poll precedes the read exactly as in
the source, and since the poll does not depend on the read outcome the
two orders define the same function. -/
def sendStream (serial proc program : Nat) (abortAt : Option Nat) :
    List ReadEv → Nat → List sentPacket × Option (Option Nat)
  | [], i =>
    if abortPending abortAt i then
      ([⟨serial, proc, program, [], TypStream, StatusError⟩], some none)
    else ([], none)
  | ReadEv.reof :: _, i =>
    if abortPending abortAt i then
      ([⟨serial, proc, program, [], TypStream, StatusError⟩], some none)
    else ([⟨serial, proc, program, [], TypStream, StatusOK⟩], some none)
  | ReadEv.rerr c :: _, i =>
    if abortPending abortAt i then
      ([⟨serial, proc, program, [], TypStream, StatusError⟩], some none)
    else ([⟨serial, proc, program, [], TypStream, StatusError⟩], some (some c))
  | ReadEv.chunk d :: rest, i =>
    if abortPending abortAt i then
      ([⟨serial, proc, program, [], TypStream, StatusError⟩], some none)
    else if d = [] then sendStream serial proc program abortAt rest (i + 1)
    else
      (⟨serial, proc, program, d, TypStream, StatusContinue⟩ ::
          (sendStream serial proc program abortAt rest (i + 1)).1,
        (sendStream serial proc program abortAt rest (i + 1)).2)

/-- A call-registry sink: an unbuffered Go channel, abstracted by
whether it has been closed and by the responses delivered through it. -/
structure Sink where
  closed : Bool
  delivered : List response
  deriving Repr, DecidableEq

/-- Modelled from the spec: the domain-event record decoded by
decodeEvent.  The DomainEvent type is defined outside the sources; per
spec section 4.9 it carries at least the callback_id used for routing,
the only field the transport inspects. -/
structure DomainEvent where
  CallbackID : Nat
  deriving Repr, DecidableEq

/-- An event-registry sink for DomainEvent values. -/
structure ESink where
  closed : Bool
  delivered : List DomainEvent
  deriving Repr, DecidableEq

/-- Association-list lookup, Go map read m[k]. -/
def lookupA {α : Type} : List (Nat × α) → Nat → Option α
  | [], _ => none
  | kv :: rest, k => if kv.1 = k then some kv.2 else lookupA rest k

/-- Association-list insertion, Go map write m[k] = v. -/
def insertA {α : Type} : List (Nat × α) → Nat → α → List (Nat × α)
  | [], k, v => [(k, v)]
  | kv :: rest, k, v =>
    if kv.1 = k then (k, v) :: rest else kv :: insertA rest k v

/-- Association-list removal, Go delete(m, k). -/
def eraseA {α : Type} : List (Nat × α) → Nat → List (Nat × α)
  | [], _ => []
  | kv :: rest, k => if kv.1 = k then eraseA rest k else kv :: eraseA rest k

/-- The transport's registries (the callbacks and events maps of the
Libvirt struct), the state shared between the reader loop and callers. -/
structure LState where
  callbacks : List (Nat × Sink)
  events : List (Nat × ESink)
  deriving Repr, DecidableEq

/-- A send on a response channel without any recover around it: sending
on a closed channel is a run-time panic (`none`); otherwise the value
is delivered. -/
def callbackRaw (st : LState) (id : Nat) (res : response) : Option LState :=
  match lookupA st.callbacks id with
  | none => some st
  | some s =>
    if s.closed then none
    else
      some { st with callbacks := insertA st.callbacks id { s with delivered := s.delivered ++ [res] } }

/-- callback (rpc.go): look the serial up in the callbacks map (no
binding: the response is dropped) and send the response on the sink,
with a deferred recover() that swallows the panic a send on a closed
channel raises, leaving the state untouched. -/
def callback (st : LState) (id : Nat) (res : response) : LState :=
  match callbackRaw st id res with
  | some st2 => st2
  | none => st

/-- stream (rpc.go), after decodeEvent succeeded: look the callback id
up in the events map and send the event on its channel.  There is no
recover here, so a send on a closed channel is a fatal panic (`none`);
an unknown callback id drops the event. -/
def streamRoute (st : LState) (e : DomainEvent) : Option LState :=
  match lookupA st.events e.CallbackID with
  | none => some st
  | some s =>
    if s.closed then none
    else
      some { st with events := insertA st.events e.CallbackID { s with delivered := s.delivered ++ [e] } }

/-- Modelled from the spec: decodeEvent extracts a DomainEvent from the
payload; the record's XDR shape is defined outside the sources, so its
decoding is abstracted to reading the callback id from the first XDR
u32 of the payload; a too-short payload is a decode failure and the
event is dropped by stream (rpc.go). -/
def decodeEvent (buf : List Nat) : Option DomainEvent :=
  (xdrU32 buf).map fun nr => ⟨nr.1⟩

/-- route (rpc.go): a packet of the QEMU program carrying the domain
monitor event procedure goes to the event path (dropped when the event
does not decode), every other packet is wrapped in a response and
delivered through the call registry by its serial.  `none` propagates
the event path's panic. -/
def route (st : LState) (h : header) (buf : List Nat) : Option LState :=
  if h.Program = ProgramQEMU ∧ h.Procedure = QEMUDomainMonitorEvent then
    match decodeEvent buf with
    | none => some st
    | some e => streamRoute st e
  else some (callback st h.Serial ⟨buf, h.Status⟩)

/-- One iteration's outcome of the framing reads in listen (rpc.go): a
fully framed packet, a pktlen failure (fatal when the error is io.EOF
or "use of closed network connection"), an extractHeader failure, or a
payload read failure. -/
inductive NetEv where
  | good (h : header) (payload : List Nat)
  | lenErr (fatal : Bool)
  | hdrErr
  | payloadErr
  deriving Repr, DecidableEq

/-- listen (rpc.go): read packets forever and route them.  A fatal
pktlen error (EOF or closed connection) returns immediately, leaving
the registries exactly as they are; any other framing failure drops the
packet and continues; a routed packet updates the registries (or, via
the event path, panics: `none`).  An exhausted event list is the loop
parked in its next read. -/
def listen (st : LState) : List NetEv → Option LState
  | [] => some st
  | ev :: rest =>
    match ev with
    | NetEv.lenErr true => some st
    | NetEv.lenErr false => listen st rest
    | NetEv.hdrErr => listen st rest
    | NetEv.payloadErr => listen st rest
    | NetEv.good h buf =>
      match route st h buf with
      | none => none
      | some st2 => listen st2 rest

/-- removeStream (rpc.go): close the subscription's event channel (a
fatal panic when the id has no channel: close(nil)), issue the
deregister RPC (modelled as succeeding), then delete the entry from the
events map.  Returns the state after successful completion. -/
def removeStream (st : LState) (id : Nat) : Option LState :=
  match lookupA st.events id with
  | none => none
  | some s =>
    some { st with events := eraseA (insertA st.events id { s with closed := true }) id }

/-- Whether a pending caller blocked on this sink has been released:
either the channel was closed or something was delivered through it. -/
def Sink.unblocked (s : Sink) : Bool :=
  s.closed || !s.delivered.isEmpty

/-- A transport state with a single in-flight call: serial 1 is bound
to an open sink with nothing delivered yet. -/
def onePendingCall : LState := ⟨[(1, ⟨false, []⟩)], []⟩

/-- A transport state whose serial 2 binding still exists but whose
sink channel has already been closed. -/
def closedCallState : LState := ⟨[(2, ⟨true, []⟩)], []⟩

/-- A transport state with one event subscription, callback id 7. -/
def oneSubscription : LState := ⟨[], [(7, ⟨false, []⟩)]⟩

/-- XDR encoding of the server error record
code=1, domain=0, padding=0, message="unknown procedure", level=2:
three u32 fields, then the 17-byte string with length prefix and three
padding bytes, then the level u32. -/
def unsupportedErrBuf : List Nat :=
  [0, 0, 0, 1, 0, 0, 0, 0, 0, 0, 0, 0, 0, 0, 0, 17] ++
    unknownProcedureBytes ++ [0, 0, 0, 0, 0, 0, 2]

/-- The record unsupportedErrBuf decodes to. -/
def unsupportedRecord : libvirtError := ⟨1, 0, 0, unknownProcedureBytes, 2⟩

/-- XDR encoding of the server error record code=0 (the well-known
ERR_OK), domain=0, padding=0, message="x", level=0. -/
def errOkRecordBytes : List Nat :=
  [0, 0, 0, 0, 0, 0, 0, 0, 0, 0, 0, 0, 0, 0, 0, 1, 120, 0, 0, 0, 0, 0, 0, 0]

lemma beU32_u32be (n : Nat) : beU32 (u32be n) = n % 4294967296 := by
  simp [beU32, u32be, List.foldl]
  omega

/-- Claim C1: for every unary call (no outgoing and no incoming
stream), the first response delivered to the call's registered sink is
the result: a StatusError response makes the call return the error the
error mapper (decodeError) produces from the response payload, and any
other response is returned with its payload unchanged and a nil
error. -/
theorem requestUnary_first_response_result (s proc program : Nat)
    (payload : List Nat) (r : response) (rest : List response) :
    (requestUnary s proc program payload (r :: rest)).2 =
      some (r, if r.Status = StatusError then decodeError r.Payload else none) := by
  simp only [requestUnary, getResponse]
  split <;> rfl

/-- Claim C9 is wrong about the code (code bug): with a reader that
delivers the four length bytes 0,0,0,28 in two partial reads of two
bytes each, pktlen returns 1835008 and not 28, the big-endian value of
the first four stream bytes.  The read loop passes the whole buffer to
every Read call instead of its unfilled tail, so the second read
overwrites the first two bytes and the buffer ends up 0,28,0,0. -/
theorem pktlen_partial_read_bug :
    pktlen [[0, 0], [0, 28]] = some 1835008 ∧ beU32 [0, 0, 0, 28] = 28 := by
  decide

/-- Counterexample to claim C6: the reader loop's exit on EOF or a
closed connection does not unblock pending call sinks.  With one
pending call registered under serial 1, a fatal length-read error makes
listen return with the registry exactly as it was: the sink is still
open and nothing was delivered to it, so its caller stays blocked. -/
theorem listen_exit_leaves_pending_sink_blocked :
    listen onePendingCall [NetEv.lenErr true] = some onePendingCall ∧
    lookupA onePendingCall.callbacks 1 = some ⟨false, []⟩ ∧
    Sink.unblocked ⟨false, []⟩ = false := by
  decide

/-- Claim C6 amended: on EOF or "use of closed network connection" the
reader loop exits cleanly and ignores any further input, leaving the
transport state — in particular every pending call sink registered in
the call registry — exactly as it was; the exit does not close or
signal those sinks, so pending callers are not unblocked by the
transport (the spec's closing of all sinks is an unimplemented
SHOULD). -/
theorem listen_fatal_exit_state_unchanged (st : LState) (rest : List NetEv) :
    listen st (NetEv.lenErr true :: rest) = some st := rfl

/-- Claim C8: delivery through the call registry neither panics nor
deadlocks the reader loop.  A serial with no binding is silently
dropped (the state is unchanged), and when the owning call has already
deregistered — the sink channel is closed — the raw channel send does
panic (callbackRaw is none) but callback's deferred recover swallows
it, so callback returns normally with the state unchanged. -/
theorem callback_closed_sink_safe (st : LState) (id : Nat) (res : response) :
    (lookupA st.callbacks id = none → callback st id res = st) ∧
    (∀ s, lookupA st.callbacks id = some s → s.closed = true →
      callbackRaw st id res = none ∧ callback st id res = st) := by
  constructor
  · intro h
    simp [callback, callbackRaw, h]
  · intro s h hc
    simp [callback, callbackRaw, h, hc]

/-- Witness for claim C8 at a concrete closed sink. -/
theorem callback_closed_sink_safe_witness :
    callbackRaw closedCallState 2 ⟨[], 0⟩ = none ∧
    callback closedCallState 2 ⟨[], 0⟩ = closedCallState :=
  (callback_closed_sink_safe closedCallState 2 ⟨[], 0⟩).2 ⟨true, []⟩ (by decide) rfl

lemma lookupA_eraseA {α : Type} (m : List (Nat × α)) (k : Nat) :
    lookupA (eraseA m k) k = none := by
  induction m with
  | nil => rfl
  | cons kv rest ih =>
    by_cases h : kv.1 = k <;> simp [eraseA, lookupA, h, ih]

/-- Claim C7: once removeStream has completed for a callback id, the
events map no longer binds that id, so every later event carrying that
id is dropped by the routing step: streamRoute neither panics nor
touches any sink, returning the state unchanged. -/
theorem removeStream_drops_later_events (st : LState) (id : Nat) (st2 : LState)
    (e : DomainEvent) (h : removeStream st id = some st2)
    (he : e.CallbackID = id) :
    lookupA st2.events id = none ∧ streamRoute st2 e = some st2 := by
  unfold removeStream at h
  cases hl : lookupA st.events id with
  | none => rw [hl] at h; exact absurd h (by simp)
  | some s =>
    rw [hl] at h
    have hst2 : st2 =
        { st with events := eraseA (insertA st.events id { s with closed := true }) id } := by
      injection h with h2
      exact h2.symm
    subst hst2
    refine ⟨lookupA_eraseA _ _, ?_⟩
    simp [streamRoute, he, lookupA_eraseA]

/-- Witness for claim C7: deregistering the only subscription and then
routing an event with its callback id drops the event. -/
theorem removeStream_drops_later_events_witness :
    lookupA (⟨[], []⟩ : LState).events 7 = none ∧
    streamRoute ⟨[], []⟩ ⟨7⟩ = some ⟨[], []⟩ :=
  removeStream_drops_later_events oneSubscription 7 ⟨[], []⟩ ⟨7⟩ (by decide) rfl

/-- Claim C5: for every payload that XDR-decodes to a server error
record, decodeError returns the Unsupported error when the record's
message contains "unknown procedure"; with no such substring it returns
no error when the code is the well-known ERR_OK, and otherwise the
structured record, whose displayable form (libvirtError.Error) is
exactly the record's message. -/
theorem decodeError_mapping (buf : List Nat) (e : libvirtError)
    (h : decodeLibvirtError buf = some e) :
    (hasSub unknownProcedureBytes e.Message = true →
      decodeError buf = some rpcErr.unsupported) ∧
    (hasSub unknownProcedureBytes e.Message = false → e.Code = errOk →
      decodeError buf = none) ∧
    (hasSub unknownProcedureBytes e.Message = false → e.Code ≠ errOk →
      decodeError buf = some (rpcErr.lib e) ∧ e.errorString = e.Message) := by
  refine ⟨fun h1 => ?_, fun h1 h2 => ?_, fun h1 h2 => ⟨?_, rfl⟩⟩
  · simp [decodeError, h, h1]
  · simp [decodeError, h, h1, h2]
  · simp [decodeError, h, h1, h2]

/-- Witness for claim C5 at a concrete "unknown procedure" record. -/
theorem decodeError_mapping_witness :
    decodeLibvirtError unsupportedErrBuf = some unsupportedRecord ∧
    decodeError unsupportedErrBuf = some rpcErr.unsupported :=
  ⟨by decide,
    (decodeError_mapping unsupportedErrBuf unsupportedRecord (by decide)).1 (by decide)⟩

/-- Counterexample to claim C4: a response with status Error does not
always terminate the receive loop with the decoded server error.  When
the payload decodes to a record whose code is the well-known ERR_OK,
decodeError returns nil, and processIncomingStream treats the response
like an ordinary data chunk: here the first delivery has status
StatusError, yet its payload (the encoded error record) is written to
the caller's incoming sink, the loop continues, and the call ends
without any error at the following StatusOK response. -/
theorem processIncomingStream_errok_not_terminating :
    (⟨errOkRecordBytes, StatusError⟩ : response).Status = StatusError ∧
    processIncomingStream true none
        [⟨errOkRecordBytes, StatusError⟩, ⟨[], StatusOK⟩] 0 =
      ([errOkRecordBytes], some (⟨[], StatusOK⟩, none)) := by
  decide

/-- Claim C4 amended: the receive loop terminates with success on a
StatusOK response and on a StatusContinue response with empty payload;
on a StatusError response it terminates and surfaces the mapped server
error provided the error mapper yields one — a StatusError payload
decoding to the ERR_OK code yields no error and the response is
processed like a data chunk instead; every non-terminating response's
payload is written to the caller-provided incoming sink in arrival
order, and a failed sink write aborts the receive with that write
error. -/
theorem processIncomingStream_cases :
    (∀ (failAt : Option Nat) (r : response) (rest : List response) (i : Nat),
      r.Status = StatusOK →
      processIncomingStream true failAt (r :: rest) i = ([], some (r, none))) ∧
    (∀ (failAt : Option Nat) (r : response) (rest : List response) (i : Nat)
        (e : rpcErr), r.Status = StatusError → decodeError r.Payload = some e →
      processIncomingStream true failAt (r :: rest) i = ([], some (r, some e))) ∧
    (∀ (failAt : Option Nat) (r : response) (rest : List response) (i : Nat),
      r.Status = StatusContinue → r.Payload = [] →
      processIncomingStream true failAt (r :: rest) i = ([], some (r, none))) ∧
    (∀ (failAt : Option Nat) (r : response) (rest : List response) (i : Nat),
      r.Status = StatusContinue → r.Payload ≠ [] → failAt ≠ some i →
      processIncomingStream true failAt (r :: rest) i =
        (r.Payload :: (processIncomingStream true failAt rest (i + 1)).1,
          (processIncomingStream true failAt rest (i + 1)).2)) ∧
    (∀ (r : response) (rest : List response) (i : Nat),
      r.Status = StatusContinue → r.Payload ≠ [] →
      processIncomingStream true (some i) (r :: rest) i =
        ([], some (⟨[], 0⟩, some rpcErr.sinkWrite))) ∧
    (∀ (failAt : Option Nat) (r : response) (rest : List response) (i : Nat),
      r.Status = StatusError → decodeError r.Payload = none → r.Payload ≠ [] →
      failAt ≠ some i →
      processIncomingStream true failAt (r :: rest) i =
        (r.Payload :: (processIncomingStream true failAt rest (i + 1)).1,
          (processIncomingStream true failAt rest (i + 1)).2)) := by
  refine ⟨?_, ?_, ?_, ?_, ?_, ?_⟩
  · intro failAt r rest i h
    simp [processIncomingStream, getResponse, h, StatusOK, StatusError]
  · intro failAt r rest i e h1 h2
    simp [processIncomingStream, getResponse, h1, h2]
  · intro failAt r rest i h1 h2
    simp [processIncomingStream, getResponse, h1, h2, StatusContinue, StatusError,
      StatusOK]
  · intro failAt r rest i h1 h2 h3
    simp [processIncomingStream, getResponse, h1, h2, h3, StatusContinue,
      StatusError, StatusOK]
  · intro r rest i h1 h2
    simp [processIncomingStream, getResponse, h1, h2, StatusContinue, StatusError,
      StatusOK]
  · intro failAt r rest i h1 h2 h3 h4
    simp [processIncomingStream, getResponse, h1, h2, h3, h4, StatusError,
      StatusOK]

/-- Witness for claim C4's amended statement: a StatusOK response ends
the stream with success, and a StatusError response whose payload maps
to an error surfaces it. -/
theorem processIncomingStream_cases_witness :
    processIncomingStream true none [⟨[], StatusOK⟩] 0 =
      ([], some (⟨[], StatusOK⟩, none)) ∧
    processIncomingStream true none [⟨unsupportedErrBuf, StatusError⟩] 0 =
      ([], some (⟨unsupportedErrBuf, StatusError⟩, some rpcErr.unsupported)) :=
  ⟨processIncomingStream_cases.1 none ⟨[], StatusOK⟩ [] 0 rfl,
    processIncomingStream_cases.2.1 none ⟨unsupportedErrBuf, StatusError⟩ [] 0
      rpcErr.unsupported rfl (by decide)⟩

/-- Claim C2: framing round-trip.  Encoding a packet with sendPacket
and decoding the produced bytes with pktlen, extractHeader and a
payload read of (length - 28) bytes yields the length 28 plus the
payload size, the six header fields of the encoded packet, and a
byte-for-byte equal payload.  The hypotheses are the uint32 ranges the
Go argument types impose, plus the packet fitting the u32 length. -/
theorem sendPacket_roundtrip (serial proc program typ status : Nat)
    (payload : List Nat)
    (h1 : serial < 4294967296) (h2 : proc < 4294967296)
    (h3 : program < 4294967296) (h4 : typ < 4294967296)
    (h5 : status < 4294967296) (h6 : 28 + payload.length < 4294967296) :
    decodePacketBytes (sendPacketBytes serial proc program (some payload) typ status) =
      some (28 + payload.length,
        ⟨program, ProtocolVersion, proc, typ, serial, status⟩, payload) := by
  have e1 : pktlen
      [(sendPacketBytes serial proc program (some payload) typ status).take
        PacketLengthSize] = some (beU32 (u32be (28 + payload.length))) := rfl
  have e2 : extractHeader
      [((sendPacketBytes serial proc program (some payload) typ status).drop
          PacketLengthSize).take HeaderSize] =
      some ⟨beU32 (u32be program), beU32 (u32be ProtocolVersion),
        beU32 (u32be proc), beU32 (u32be typ), beU32 (u32be serial),
        beU32 (u32be status)⟩ := rfl
  have e3 : (sendPacketBytes serial proc program (some payload) typ status).drop
      (PacketLengthSize + HeaderSize) = payload := rfl
  simp only [decodePacketBytes, e1, e2, e3, Option.some_bind, beU32_u32be]
  rw [Nat.mod_eq_of_lt h6, Nat.mod_eq_of_lt h1, Nat.mod_eq_of_lt h2,
    Nat.mod_eq_of_lt h3, Nat.mod_eq_of_lt h4, Nat.mod_eq_of_lt h5,
    Nat.mod_eq_of_lt (show ProtocolVersion < 4294967296 by decide)]
  have hlen : 28 + payload.length - (PacketLengthSize + HeaderSize) =
      payload.length := by
    simp [PacketLengthSize, HeaderSize]
  simp [hlen]

/-- Witness for claim C2 at a concrete packet. -/
theorem sendPacket_roundtrip_witness :
    decodePacketBytes (sendPacketBytes 5 6 7 (some [9, 10]) TypCall StatusOK) =
      some (30, ⟨7, ProtocolVersion, 6, TypCall, 5, StatusOK⟩, [9, 10]) :=
  sendPacket_roundtrip 5 6 7 TypCall StatusOK [9, 10] (by decide) (by decide)
    (by decide) (by decide) (by decide) (by decide)

lemma sendStream_chunks_run (ser proc prog : Nat) (rest : List ReadEv) :
    ∀ (chunks : List (List Nat)), (∀ d ∈ chunks, d ≠ []) → ∀ (i : Nat),
      sendStream ser proc prog none (chunks.map ReadEv.chunk ++ rest) i =
        ((chunks.map fun d =>
            (⟨ser, proc, prog, d, TypStream, StatusContinue⟩ : sentPacket)) ++
            (sendStream ser proc prog none rest (i + chunks.length)).1,
          (sendStream ser proc prog none rest (i + chunks.length)).2) := by
  intro chunks
  induction chunks with
  | nil => intro _ i; simp
  | cons d ds ih =>
    intro hne i
    have hd : d ≠ [] := hne d (by simp)
    have hne2 : ∀ x ∈ ds, x ≠ [] := fun x hx => hne x (by simp [hx])
    have hstep : sendStream ser proc prog none
        (ReadEv.chunk d :: (ds.map ReadEv.chunk ++ rest)) i =
        (⟨ser, proc, prog, d, TypStream, StatusContinue⟩ ::
            (sendStream ser proc prog none (ds.map ReadEv.chunk ++ rest) (i + 1)).1,
          (sendStream ser proc prog none (ds.map ReadEv.chunk ++ rest) (i + 1)).2) := by
      rw [sendStream, if_neg hd]
      simp [abortPending]
    rw [List.map_cons, List.cons_append, hstep, ih hne2 (i + 1)]
    have harith : i + 1 + ds.length = i + (ds.length + 1) := by omega
    simp [harith]

lemma sendStream_eof_tail (ser proc prog : Nat) (j : Nat) :
    sendStream ser proc prog none [ReadEv.reof] j =
      ([⟨ser, proc, prog, [], TypStream, StatusOK⟩], some none) := rfl

lemma sendStream_err_tail (ser proc prog c : Nat) (j : Nat) :
    sendStream ser proc prog none [ReadEv.rerr c] j =
      ([⟨ser, proc, prog, [], TypStream, StatusError⟩], some (some c)) := rfl

lemma sendStream_abort_run (ser proc prog : Nat) :
    ∀ (chunks : List (List Nat)) (k : Nat), k ≤ chunks.length →
      (∀ d ∈ chunks, d ≠ []) → ∀ (rest : List ReadEv) (i : Nat),
      sendStream ser proc prog (some (i + k)) (chunks.map ReadEv.chunk ++ rest) i =
        (((chunks.take k).map fun d =>
            (⟨ser, proc, prog, d, TypStream, StatusContinue⟩ : sentPacket)) ++
            [⟨ser, proc, prog, [], TypStream, StatusError⟩], some none) := by
  intro chunks
  induction chunks with
  | nil =>
    intro k hk _ rest i
    have hk0 : k = 0 := Nat.le_zero.mp hk
    subst hk0
    have hab : abortPending (some i) i = true := by
      simp [abortPending]
    simp only [Nat.add_zero]
    cases rest with
    | nil => simp [sendStream, hab]
    | cons ev evs =>
      cases ev <;> simp [sendStream, hab]
  | cons d ds ih =>
    intro k hk hne rest i
    cases k with
    | zero =>
      have hab : abortPending (some i) i = true := by
        simp [abortPending]
      simp only [Nat.add_zero]
      simp [sendStream, hab]
    | succ k2 =>
      have hd : d ≠ [] := hne d (by simp)
      have hne2 : ∀ x ∈ ds, x ≠ [] := fun x hx => hne x (by simp [hx])
      have hk2 : k2 ≤ ds.length := by simpa using hk
      have hab : abortPending (some (i + (k2 + 1))) i = false := by
        simp [abortPending]
      have hstep : sendStream ser proc prog (some (i + (k2 + 1)))
          (ReadEv.chunk d :: (ds.map ReadEv.chunk ++ rest)) i =
          (⟨ser, proc, prog, d, TypStream, StatusContinue⟩ ::
              (sendStream ser proc prog (some (i + (k2 + 1)))
                (ds.map ReadEv.chunk ++ rest) (i + 1)).1,
            (sendStream ser proc prog (some (i + (k2 + 1)))
              (ds.map ReadEv.chunk ++ rest) (i + 1)).2) := by
        rw [sendStream, if_neg (by simp [hab]), if_neg hd]
      have harith : i + (k2 + 1) = (i + 1) + k2 := by omega
      rw [List.map_cons, List.cons_append, hstep, harith,
        ih k2 hk2 hne2 rest (i + 1)]
      simp

lemma cont_filter_payloads (ser proc prog : Nat) (chunks : List (List Nat)) :
    (((chunks.map fun d =>
        (⟨ser, proc, prog, d, TypStream, StatusContinue⟩ : sentPacket)) ++
          ([⟨ser, proc, prog, [], TypStream, StatusOK⟩] : List sentPacket)).filter
        (fun p : sentPacket => p.Status == StatusContinue)).map sentPacket.Payload = chunks := by
  induction chunks with
  | nil => rfl
  | cons d ds ih =>
    simp [List.filter_cons, StatusContinue, StatusOK] at ih ⊢
    exact ih

/-- Claim C3: behavior of the outgoing stream sender.  For a source
delivering its bytes as a list of non-empty Read chunks, each at most
4 MiB - HeaderSize long (the size of the buffer each Read fills):
(1) with no abort and a final EOF, sendStream writes one
Stream/Continue packet per chunk, in order, followed by a Stream/OK
packet, and returns nil; (2) hence the concatenated payloads of the
Stream/Continue packets written are exactly the source bytes, in
order; (3) every packet payload respects the 4 MiB - HeaderSize cap;
(4) when the source fails with read error c after its chunks, the
Continue packets are followed by one Stream/Error packet and sendStream
returns the original error c; (5) when the abort signal arrives at
iteration k, the sender stops after the first k Continue packets,
writes one Stream/Error packet, and returns. -/
theorem sendStream_behavior (ser proc prog : Nat) (chunks : List (List Nat))
    (c k : Nat)
    (hb : ∀ d ∈ chunks, d.length ≤ 4 * MiB - HeaderSize)
    (hne : ∀ d ∈ chunks, d ≠ [])
    (hk : k ≤ chunks.length) :
    (sendStream ser proc prog none (chunks.map ReadEv.chunk ++ [ReadEv.reof]) 0 =
      ((chunks.map fun d =>
          (⟨ser, proc, prog, d, TypStream, StatusContinue⟩ : sentPacket)) ++
          [⟨ser, proc, prog, [], TypStream, StatusOK⟩], some none)) ∧
    ((((sendStream ser proc prog none
          (chunks.map ReadEv.chunk ++ [ReadEv.reof]) 0).1.filter
        (fun p : sentPacket => p.Status == StatusContinue)).map sentPacket.Payload).flatten =
      chunks.flatten) ∧
    (∀ p ∈ (sendStream ser proc prog none
        (chunks.map ReadEv.chunk ++ [ReadEv.reof]) 0).1,
      p.Payload.length ≤ 4 * MiB - HeaderSize) ∧
    (sendStream ser proc prog none (chunks.map ReadEv.chunk ++ [ReadEv.rerr c]) 0 =
      ((chunks.map fun d =>
          (⟨ser, proc, prog, d, TypStream, StatusContinue⟩ : sentPacket)) ++
          [⟨ser, proc, prog, [], TypStream, StatusError⟩], some (some c))) ∧
    (sendStream ser proc prog (some k) (chunks.map ReadEv.chunk ++ [ReadEv.reof]) 0 =
      (((chunks.take k).map fun d =>
          (⟨ser, proc, prog, d, TypStream, StatusContinue⟩ : sentPacket)) ++
          [⟨ser, proc, prog, [], TypStream, StatusError⟩], some none)) := by
  have main : sendStream ser proc prog none
      (chunks.map ReadEv.chunk ++ [ReadEv.reof]) 0 =
      ((chunks.map fun d =>
          (⟨ser, proc, prog, d, TypStream, StatusContinue⟩ : sentPacket)) ++
          [⟨ser, proc, prog, [], TypStream, StatusOK⟩], some none) := by
    rw [sendStream_chunks_run ser proc prog [ReadEv.reof] chunks hne 0,
      sendStream_eof_tail]
  have main2 : sendStream ser proc prog none
      (chunks.map ReadEv.chunk ++ [ReadEv.rerr c]) 0 =
      ((chunks.map fun d =>
          (⟨ser, proc, prog, d, TypStream, StatusContinue⟩ : sentPacket)) ++
          [⟨ser, proc, prog, [], TypStream, StatusError⟩], some (some c)) := by
    rw [sendStream_chunks_run ser proc prog [ReadEv.rerr c] chunks hne 0,
      sendStream_err_tail]
  refine ⟨main, ?_, ?_, main2, ?_⟩
  · rw [main]
    rw [cont_filter_payloads]
  · rw [main]
    intro p hp
    rcases List.mem_append.mp hp with h | h
    · rcases List.mem_map.mp h with ⟨d, hd, rfl⟩
      exact hb d hd
    · have hpv : p = ⟨ser, proc, prog, [], TypStream, StatusOK⟩ := by
        simpa using h
      subst hpv
      simp
  · have habort := sendStream_abort_run ser proc prog chunks k hk hne
      [ReadEv.reof] 0
    simpa using habort

/-- Witness for claim C3 at a concrete two-chunk source, read error 7
and abort after one chunk. -/
theorem sendStream_behavior_witness :
    (∀ d ∈ [[1], [2, 3]], List.length d ≤ 4 * MiB - HeaderSize) ∧
    (∀ d ∈ [[1], [2, 3]], d ≠ []) ∧ 1 ≤ List.length [[1], [2, 3]] ∧
    sendStream 1 2 3 none ([[1], [2, 3]].map ReadEv.chunk ++ [ReadEv.reof]) 0 =
      ([⟨1, 2, 3, [1], TypStream, StatusContinue⟩,
        ⟨1, 2, 3, [2, 3], TypStream, StatusContinue⟩,
        ⟨1, 2, 3, [], TypStream, StatusOK⟩], some none) :=
  ⟨by decide, by decide, by decide,
    (sendStream_behavior 1 2 3 [[1], [2, 3]] 7 1 (by decide) (by decide)
      (by decide)).1⟩

/-- Claim C10: sendStream never writes a Stream packet with status
Continue and an empty payload — a source read returning zero bytes
without error produces no packet — so the client never emits the
empty-Continue shape that peers may read as end-of-stream.  Every
packet of every sendStream trace with status Continue has a non-empty
payload. -/
theorem sendStream_no_empty_continue (ser proc prog : Nat)
    (abortAt : Option Nat) (evs : List ReadEv) (i : Nat) (p : sentPacket)
    (hp : p ∈ (sendStream ser proc prog abortAt evs i).1)
    (hs : p.Status = StatusContinue) : p.Payload ≠ [] := by
  induction evs generalizing i with
  | nil =>
    rw [sendStream] at hp
    by_cases ha : abortPending abortAt i
    · rw [if_pos ha] at hp
      have hpv : p = ⟨ser, proc, prog, [], TypStream, StatusError⟩ := by
        simpa using hp
      subst hpv
      simp [StatusError, StatusContinue] at hs
    · rw [if_neg ha] at hp
      simp at hp
  | cons ev rest ih =>
    cases ev with
    | reof =>
      rw [sendStream] at hp
      by_cases ha : abortPending abortAt i
      · rw [if_pos ha] at hp
        have hpv : p = ⟨ser, proc, prog, [], TypStream, StatusError⟩ := by
          simpa using hp
        subst hpv
        simp [StatusError, StatusContinue] at hs
      · rw [if_neg ha] at hp
        have hpv : p = ⟨ser, proc, prog, [], TypStream, StatusOK⟩ := by
          simpa using hp
        subst hpv
        simp [StatusOK, StatusContinue] at hs
    | rerr c =>
      rw [sendStream] at hp
      by_cases ha : abortPending abortAt i
      · rw [if_pos ha] at hp
        have hpv : p = ⟨ser, proc, prog, [], TypStream, StatusError⟩ := by
          simpa using hp
        subst hpv
        simp [StatusError, StatusContinue] at hs
      · rw [if_neg ha] at hp
        have hpv : p = ⟨ser, proc, prog, [], TypStream, StatusError⟩ := by
          simpa using hp
        subst hpv
        simp [StatusError, StatusContinue] at hs
    | chunk d =>
      rw [sendStream] at hp
      by_cases ha : abortPending abortAt i
      · rw [if_pos ha] at hp
        have hpv : p = ⟨ser, proc, prog, [], TypStream, StatusError⟩ := by
          simpa using hp
        subst hpv
        simp [StatusError, StatusContinue] at hs
      · rw [if_neg ha] at hp
        by_cases hd : d = []
        · rw [if_pos hd] at hp
          exact ih (i + 1) hp
        · rw [if_neg hd] at hp
          rcases List.mem_cons.mp hp with hpv | hmem
          · subst hpv
            exact hd
          · exact ih (i + 1) hmem

/-- Witness for claim C10: a trace containing a zero-byte read: the
resulting Continue packet for the following chunk is non-empty. -/
theorem sendStream_no_empty_continue_witness :
    (⟨1, 2, 3, [7], TypStream, StatusContinue⟩ : sentPacket).Payload ≠ [] :=
  sendStream_no_empty_continue 1 2 3 none
    [ReadEv.chunk [], ReadEv.chunk [7], ReadEv.reof] 0
    ⟨1, 2, 3, [7], TypStream, StatusContinue⟩ (by decide) rfl
